import Mathlib

/-!
Verification development for the micro-dns resolver (`src/main.go`).

Strings from the Go program are modelled as lists of byte values
(`List Nat`); `str` turns an ASCII Lean string literal into that form.
Each definition below shallowly embeds the correspondingly named Go or
miekg/dns function used by `main.go`.
-/

set_option autoImplicit false

namespace MicroDNS

/-- ASCII string literal as a list of byte values. -/
def str (s : String) : List Nat := s.data.map Char.toNat

/-- Is `b` an ASCII uppercase letter (`'A'..'Z'`)? -/
def isUpperByte (b : Nat) : Bool := decide (65 ≤ b ∧ b ≤ 90)

/-- Per-byte model of `strings.ToLower` (ASCII range). -/
def goToLowerByte (b : Nat) : Nat := if 65 ≤ b ∧ b ≤ 90 then b + 32 else b

/-- Model of `strings.ToLower` on a byte string. -/
def goToLower (s : List Nat) : List Nat := s.map goToLowerByte

/-- Per-byte model of `strings.ToUpper` (ASCII range). -/
def goToUpperByte (b : Nat) : Nat := if 97 ≤ b ∧ b ≤ 122 then b - 32 else b

/-- Model of `strings.ToUpper` on a byte string. -/
def goToUpper (s : List Nat) : List Nat := s.map goToUpperByte

/-- Is `b` an ASCII decimal digit? -/
def isDigitByte (b : Nat) : Bool := decide (48 ≤ b ∧ b ≤ 57)

/-- Is `b` ASCII whitespace, as recognised by `strings.Fields`/`TrimSpace`? -/
def isSpaceByte (b : Nat) : Bool :=
  decide (b = 32 ∨ b = 9 ∨ b = 10 ∨ b = 11 ∨ b = 12 ∨ b = 13)

/-- Model of `strings.TrimSpace`: drop leading and trailing whitespace. -/
def trimSpace (s : List Nat) : List Nat :=
  ((s.dropWhile isSpaceByte).reverse.dropWhile isSpaceByte).reverse

/-- Accumulator loop for `strings.Fields`. -/
def fieldsAux : List Nat → List Nat → List (List Nat)
  | [], cur => if cur.isEmpty then [] else [cur.reverse]
  | b :: rest, cur =>
    if isSpaceByte b then
      if cur.isEmpty then fieldsAux rest [] else cur.reverse :: fieldsAux rest []
    else fieldsAux rest (b :: cur)

/-- Model of `strings.Fields`: split around runs of whitespace. -/
def goFields (s : List Nat) : List (List Nat) := fieldsAux s []

/-- Count of leading backslash bytes (used by `dns.IsFqdn`). -/
def countBackslashes : List Nat → Nat
  | 92 :: rest => countBackslashes rest + 1
  | _ => 0

/-- Model of miekg `dns.IsFqdn`: ends in a dot that is not escaped
(an even number of backslashes precedes the final dot). -/
def dnsIsFqdn (s : List Nat) : Bool :=
  match s.reverse with
  | 46 :: rest => decide (countBackslashes rest % 2 = 0)
  | _ => false

/-- Model of miekg `dns.Fqdn`: append a trailing dot unless already an FQDN. -/
def dnsFqdn (s : List Nat) : List Nat :=
  if dnsIsFqdn s then s else s ++ [46]

/-- Model of `strconv.ParseUint(s, 10, 32)`: nonempty all-digit string whose
value fits in 32 bits; `none` models the error return. -/
def parseUint32 (s : List Nat) : Option Nat :=
  if s.isEmpty then none
  else if s.all isDigitByte then
    let v := s.foldl (fun a b => a * 10 + (b - 48)) 0
    if v < 4294967296 then some v else none
  else none

/-- Digit run for `strconv.Atoi` (no size cutoff inside the loop; the int64
range check is made at the end, matching `ParseInt`'s error behaviour). -/
def atoiDigits (s : List Nat) : Option Nat :=
  if s.isEmpty then none
  else if s.all isDigitByte then
    some (s.foldl (fun a b => a * 10 + (b - 48)) 0)
  else none

/-- Model of `strconv.Atoi`: optional sign, decimal digits, int64 range. -/
def parseAtoi (s : List Nat) : Option Int :=
  let signed : Bool × List Nat :=
    match s with
    | 45 :: r => (true, r)
    | 43 :: r => (false, r)
    | _ => (false, s)
  match atoiDigits signed.2 with
  | none => none
  | some v =>
    let i : Int := if signed.1 then -(v : Int) else (v : Int)
    if -(2 ^ 63) ≤ i ∧ i < 2 ^ 63 then some i else none

/-- Model of Go's `uint16(i)` conversion on an `int` (two's complement
truncation to 16 bits). -/
def toUint16 (i : Int) : Nat := (i.emod 65536).toNat

/-! Models of `net.ParseIP` and `IP.To4` from the Go standard library. -/

/-- Loop of Go `net/parse.go`'s `dtoi`: decimal digits with a `0xFFFFFF`
cutoff; returns (value, consumed, ok). -/
def dtoiLoop : List Nat → Nat → Nat → Nat × Nat × Bool
  | [], n, i => (n, i, true)
  | b :: rest, n, i =>
    if 48 ≤ b ∧ b ≤ 57 then
      let n2 := n * 10 + (b - 48)
      if 16777216 ≤ n2 then (16777216, i + 1, false)
      else dtoiLoop rest n2 (i + 1)
    else (n, i, true)

/-- Model of `dtoi`: decimal to integer, returning (value, consumed, ok). -/
def dtoi (s : List Nat) : Nat × Nat × Bool :=
  match dtoiLoop s 0 0 with
  | (n, i, ok) =>
    if ok = false then (n, i, false)
    else if i = 0 then (0, 0, false)
    else (n, i, true)

/-- Value of an ASCII hex digit. -/
def hexVal (b : Nat) : Option Nat :=
  if 48 ≤ b ∧ b ≤ 57 then some (b - 48)
  else if 97 ≤ b ∧ b ≤ 102 then some (b - 97 + 10)
  else if 65 ≤ b ∧ b ≤ 70 then some (b - 65 + 10)
  else none

/-- Loop of `xtoi`: hex digits with a `0xFFFFFF` cutoff. -/
def xtoiLoop : List Nat → Nat → Nat → Nat × Nat × Bool
  | [], n, i => (n, i, true)
  | b :: rest, n, i =>
    match hexVal b with
    | none => (n, i, true)
    | some d =>
      let n2 := n * 16 + d
      if 16777216 ≤ n2 then (0, i, false)
      else xtoiLoop rest n2 (i + 1)

/-- Model of `xtoi`: hexadecimal to integer, returning (value, consumed, ok). -/
def xtoi (s : List Nat) : Nat × Nat × Bool :=
  match xtoiLoop s 0 0 with
  | (n, i, ok) =>
    if ok = false then (0, i, false)
    else if i = 0 then (0, 0, false)
    else (n, i, true)

/-- The 12-byte prefix Go's `IPv4()` constructor puts before the 4 octets. -/
def v4InV6 : List Nat := [0, 0, 0, 0, 0, 0, 0, 0, 0, 0, 255, 255]

/-- Octet loop of Go's `parseIPv4`; `k` octets remain, `acc` holds the octets
parsed so far (the `i > 0` dot requirement is tracked by `acc` nonemptiness). -/
def parseV4Loop : Nat → List Nat → List Nat → Option (List Nat)
  | 0, s, acc => if s.isEmpty then some acc else none
  | k + 1, s, acc =>
    if s.isEmpty then none
    else
      let afterDot : Option (List Nat) :=
        if acc.isEmpty then some s
        else match s with
          | 46 :: r => some r
          | _ => none
      match afterDot with
      | none => none
      | some s2 =>
        match dtoi s2 with
        | (n, c, ok) =>
          if ok = false ∨ 255 < n then none
          else if 1 < c ∧ s2.head? = some 48 then none
          else parseV4Loop k (s2.drop c) (acc ++ [n])

/-- Model of Go's `parseIPv4`: dotted quad, returned in the 16-byte
IPv4-in-IPv6 representation that `IPv4()` produces. -/
def parseIPv4 (s : List Nat) : Option (List Nat) :=
  (parseV4Loop 4 s []).map (fun p => v4InV6 ++ p)

/-- Post-loop step of Go's `parseIPv6`: reject leftover input, expand the
ellipsis (or reject a missing/superfluous one). -/
def finishV6 (acc : List Nat) (i : Nat) (ell : Option Nat) (s : List Nat) :
    Option (List Nat) :=
  if s.isEmpty = false then none
  else if i < 16 then
    match ell with
    | none => none
    | some e => some (acc.take e ++ List.replicate (16 - i) 0 ++ acc.drop e)
  else if ell.isSome then none
  else some acc

/-- Main loop of Go's `parseIPv6`; `fuel` only bounds recursion depth (each
iteration consumes at least one input byte, so `s.length + 1` suffices). -/
def parseV6Loop : Nat → List Nat → Nat → List Nat → Option Nat → Option (List Nat)
  | 0, _, _, _, _ => none
  | fuel + 1, s, i, acc, ell =>
    if 16 ≤ i then finishV6 acc i ell s
    else
      match xtoi s with
      | (n, c, ok) =>
        if ok = false ∨ 65535 < n then none
        else if (s.drop c).head? = some 46 then
          if ell = none ∧ i ≠ 12 then none
          else if 16 < i + 4 then none
          else
            match parseIPv4 s with
            | none => none
            | some ip4 => finishV6 (acc ++ ip4.drop 12) (i + 4) ell []
        else
          let acc2 := acc ++ [n / 256, n % 256]
          let i2 := i + 2
          let s2 := s.drop c
          if s2.isEmpty then finishV6 acc2 i2 ell []
          else
            match s2 with
            | 58 :: s3 =>
              if s3.isEmpty then none
              else
                match s3 with
                | 58 :: s4 =>
                  if ell.isSome then none
                  else if s4.isEmpty then finishV6 acc2 i2 (some i2) []
                  else parseV6Loop fuel s4 i2 acc2 (some i2)
                | _ => parseV6Loop fuel s3 i2 acc2 ell
            | _ => none

/-- Model of Go's `parseIPv6` (no zone, as called from `net.ParseIP`). -/
def parseIPv6 (s : List Nat) : Option (List Nat) :=
  match s with
  | 58 :: 58 :: rest =>
    if rest.isEmpty then some (List.replicate 16 0)
    else parseV6Loop (rest.length + 1) rest 0 [] (some 0)
  | _ => parseV6Loop (s.length + 1) s 0 [] none

/-- Character scan of `net.ParseIP`: the first `.` or `:` picks the family. -/
def parseIPScan (orig : List Nat) : List Nat → Option (List Nat)
  | [] => none
  | 46 :: _ => parseIPv4 orig
  | 58 :: _ => parseIPv6 orig
  | _ :: rest => parseIPScan orig rest

/-- Model of `net.ParseIP`; `none` models the `nil` result. -/
def parseIP (s : List Nat) : Option (List Nat) := parseIPScan s s

/-- Model of Go's `IP.To4`: 4-byte addresses pass through; 16-byte addresses
only when they carry the IPv4-in-IPv6 prefix; everything else is `nil`. -/
def to4 (ip : List Nat) : Option (List Nat) :=
  if ip.length = 4 then some ip
  else if ip.length = 16 ∧ ip.take 12 = v4InV6 then some (ip.drop 12)
  else none

/-! Model of miekg `dns.IsDomainName`. -/

/-- Model of miekg's `isDDD`: the next three bytes are decimal digits. -/
def isDDD : List Nat → Bool
  | a :: b :: c :: _ => isDigitByte a && isDigitByte b && isDigitByte c
  | _ => false

/-- Loop of miekg `IsDomainName`, walking the FQDN byte by byte. `atStart` is
true only at index 0; `off` is the packed-length counter, `lab` the current
label's length, `wasDot` whether the previous byte was an unescaped dot,
`labels` the label count. `fuel` only bounds recursion depth (each step
consumes at least one byte, so `s.length + 1` suffices). -/
def idnLoop : Nat → List Nat → Bool → Nat → Nat → Bool → Nat → Nat × Bool
  | 0, _, _, _, _, _, labels => (labels, false)
  | _ + 1, [], _, _, _, _, labels => (labels, true)
  | fuel + 1, b :: rest, atStart, off, lab, wasDot, labels =>
    if b = 92 then
      if 256 < off + 1 then (labels, false)
      else if isDDD rest then idnLoop fuel (rest.drop 3) false off (lab + 1) false labels
      else idnLoop fuel (rest.drop 1) false off (lab + 1) false labels
    else if b = 46 then
      if atStart ∧ rest.isEmpty = false then (labels, false)
      else if wasDot then (labels, false)
      else if 64 ≤ lab then (labels, false)
      else if 256 < off + lab + 1 then (labels, false)
      else idnLoop fuel rest false (off + lab + 1) 0 true (labels + 1)
    else idnLoop fuel rest false off (lab + 1) false labels

/-- Model of miekg `dns.IsDomainName`: label count and validity of `Fqdn s`. -/
def dnsIsDomainName (s : List Nat) : Nat × Bool :=
  if s.isEmpty then (0, false)
  else
    let f := dnsFqdn s
    idnLoop (f.length + 1) f true 0 0 false 0

/-! Zone parser (`loadZoneFile`) and the record store. -/

/-- A stored resource record, as in `main.go`'s `Record` struct (the Go field
`Type` is spelled `rType` because `Type` is reserved in Lean). -/
structure Record where
  rType : List Nat
  TTL : Nat
  Data : List Nat
  Pref : Nat
deriving DecidableEq, Repr

/-- The record store: the Go map `map[string]Record`, modelled as an
association list whose keys stay distinct (see `insertRec`). -/
abbrev RecMap : Type := List (List Nat × Record)

/-- Go map indexing `recs[name]`. -/
def lookupRecs : RecMap → List Nat → Option Record
  | [], _ => none
  | (k, v) :: rest, n => if k = n then some v else lookupRecs rest n

/-- Go map assignment `recs[name] = rec`: replace the binding if the key is
present, otherwise add it. -/
def insertRec : RecMap → List Nat → Record → RecMap
  | [], n, r => [(n, r)]
  | (k, v) :: rest, n, r =>
    if k = n then (n, r) :: rest else (k, v) :: insertRec rest n r

/-- Field-level dispatch of one zone line (the part of `loadZoneFile`'s loop
body after `strings.Fields`): validates ttl/class and builds the record per
type, `none` for every diagnostic-and-skip path. -/
def parseLineFields : List (List Nat) → Option (List Nat × Record)
  | f0 :: f1 :: f2 :: f3 :: f4 :: rest =>
    let name := dnsFqdn f0
    match parseUint32 f1 with
    | none => none
    | some ttl =>
      let cls := goToUpper f2
      let rt := goToUpper f3
      if cls ≠ str "IN" then none
      else if rt = str "A" then
        if parseIP f4 = none then none
        else some (name, ⟨str "A", ttl, f4, 0⟩)
      else if rt = str "CNAME" then
        let target := dnsFqdn f4
        if (dnsIsDomainName target).2 = false then none
        else some (name, ⟨str "CNAME", ttl, target, 0⟩)
      else if rt = str "TXT" then
        some (name, ⟨str "TXT", ttl, List.intercalate [32] (f4 :: rest), 0⟩)
      else if rt = str "MX" then
        match rest with
        | [] => none
        | f5 :: _ =>
          match parseAtoi f4 with
          | none => none
          | some pref =>
            let host := dnsFqdn f5
            if (dnsIsDomainName host).2 = false then none
            else some (name, ⟨str "MX", ttl, host, toUint16 pref⟩)
      else none
  | _ => none

/-- One iteration of `loadZoneFile`'s scan loop on a raw line: trim, skip
blanks and `;`/`#` comments, then split into fields and dispatch. -/
def parseLine (line : List Nat) : Option (List Nat × Record) :=
  let l := trimSpace line
  match l with
  | [] => none
  | 59 :: _ => none
  | 35 :: _ => none
  | _ => parseLineFields (goFields l)

/-- Fold one line into the store (`recs[name] = Record{...}` on success,
store untouched on any skipped line). -/
def processLine (recs : RecMap) (line : List Nat) : RecMap :=
  match parseLine line with
  | some (n, r) => insertRec recs n r
  | none => recs

/-- Model of `loadZoneFile` on an already-read list of lines. -/
def loadZone (lines : List (List Nat)) : RecMap :=
  lines.foldl processLine []

/-- Model of `loadZoneFile` including the file read: `none` input models an
unreadable file (`os.Open`/scanner error), mapped to the error return. -/
def loadZoneFileM (source : Option (List (List Nat))) : Option RecMap :=
  source.map loadZone

/-- Startup decision in `main`: the process goes on to serve exactly when the
initial `loadZoneFile` call returns without error. -/
def startupServes (source : Option (List (List Nat))) : Bool :=
  (loadZoneFileM source).isSome

/-! Query resolver (`handleDNSRequest`). -/

/-- miekg `dns.TypeA`. -/
def typeA : Nat := 1
/-- miekg `dns.TypeCNAME`. -/
def typeCNAME : Nat := 5
/-- miekg `dns.TypeMX`. -/
def typeMX : Nat := 15
/-- miekg `dns.TypeTXT`. -/
def typeTXT : Nat := 16
/-- miekg `dns.RcodeSuccess`. -/
def rcodeSuccess : Nat := 0
/-- miekg `dns.RcodeServerFailure`. -/
def rcodeServerFailure : Nat := 2
/-- miekg `dns.RcodeNotImplemented`. -/
def rcodeNotImplemented : Nat := 4

/-- One question of an incoming request. -/
structure Question where
  qname : List Nat
  qtype : Nat
deriving DecidableEq, Repr

/-- An answer resource record as `handleDNSRequest` constructs them: the
payload of `dns.A` (note the `.To4()` result may be nil), `dns.CNAME`,
`dns.TXT` and `dns.MX`. -/
inductive RR where
  | a (name : List Nat) (ttl : Nat) (addr : Option (List Nat))
  | cname (name : List Nat) (ttl : Nat) (target : List Nat)
  | txt (name : List Nat) (ttl : Nat) (text : List Nat)
  | mx (name : List Nat) (ttl : Nat) (pref : Nat) (target : List Nat)
deriving DecidableEq, Repr

/-- The reply message, restricted to the parts `handleDNSRequest` sets. -/
structure Msg where
  rcode : Nat
  answer : List RR
  authoritative : Bool
deriving DecidableEq, Repr

/-- The reply as `m := new(dns.Msg); m.SetReply(r); m.Authoritative = true`
initialises it. -/
def initMsg : Msg := { rcode := rcodeSuccess, answer := [], authoritative := true }

/-- Query-side name normalisation, line 180: `dns.Fqdn(strings.ToLower(q.Name))`. -/
def normalizeQuery (qname : List Nat) : List Nat := dnsFqdn (goToLower qname)

/-- Body of `handleDNSRequest`'s per-question loop (lines 177–227): look up
the normalised name, branch on query type and stored record type, appending
an answer and raising the `answered` flag, or set NOTIMPLEMENTED on an
unsupported query type when some record exists for the name. -/
def processQuestion (recs : RecMap) (st : Msg × Bool) (q : Question) : Msg × Bool :=
  let m := st.1
  let answered := st.2
  let name := normalizeQuery q.qname
  match lookupRecs recs name with
  | none => (m, answered)
  | some rec =>
    if q.qtype = typeA then
      if rec.rType = str "A" then
        ({ m with answer := m.answer ++ [RR.a q.qname rec.TTL ((parseIP rec.Data).bind to4)] }, true)
      else if rec.rType = str "CNAME" then
        ({ m with answer := m.answer ++ [RR.cname q.qname rec.TTL rec.Data] }, true)
      else (m, answered)
    else if q.qtype = typeCNAME then
      if rec.rType = str "CNAME" then
        ({ m with answer := m.answer ++ [RR.cname q.qname rec.TTL rec.Data] }, true)
      else (m, answered)
    else if q.qtype = typeTXT then
      if rec.rType = str "TXT" then
        ({ m with answer := m.answer ++ [RR.txt q.qname rec.TTL rec.Data] }, true)
      else (m, answered)
    else if q.qtype = typeMX then
      if rec.rType = str "MX" then
        ({ m with answer := m.answer ++ [RR.mx q.qname rec.TTL rec.Pref rec.Data] }, true)
      else (m, answered)
    else ({ m with rcode := rcodeNotImplemented }, answered)

/-- The `answered` flag a request's question list produces (the fold of the
per-question loop starting from the fresh reply). -/
def answeredFlag (recs : RecMap) (qs : List Question) : Bool :=
  (qs.foldl (processQuestion recs) (initMsg, false)).2

/-- Did this single question produce an answer, starting from a fresh reply?
(The per-question branch conditions depend only on the store and the
question, so this is the per-question contribution to the `answered` flag.) -/
def questionAnswered (recs : RecMap) (q : Question) : Bool :=
  (processQuestion recs (initMsg, false) q).2

/-- Whole model of `handleDNSRequest`: fold the questions, then the fallback
decision (lines 229–241). `fallbackDNS` is `config.FallbackDNS`;
`forwardResult` models `forwardToFallback`'s outcome (`none` = transport
error). Returns the message written to the client and whether forwarding was
attempted. -/
def handleDNSRequest (recs : RecMap) (fallbackDNS : List Nat)
    (forwardResult : Option Msg) (questions : List Question) : Msg × Bool :=
  let folded := questions.foldl (processQuestion recs) (initMsg, false)
  let m := folded.1
  let answered := folded.2
  if answered = false ∧ fallbackDNS ≠ [] then
    match forwardResult with
    | some resp => (resp, true)
    | none => ({ m with rcode := rcodeServerFailure }, true)
  else (m, false)

/-! Reload supervisor (`reloadZoneIfChanged`). -/

/-- The process-wide state the reload loop owns: the active record map and
the recorded zone-file modification time (modelled as a number). -/
structure ZoneState where
  records : RecMap
  hostsFileModTime : Nat
deriving DecidableEq, Repr

/-- One iteration of `reloadZoneIfChanged`'s loop after the sleep:
`statResult` models `os.Stat` (`none` = error, `some t` = modification
time), `loadResult` models `loadZoneFile` (`none` = error). The state is
replaced only when the stat succeeds, the time is strictly newer, and the
load succeeds. -/
def reloadStep (st : ZoneState) (statResult : Option Nat)
    (loadResult : Option RecMap) : ZoneState :=
  match statResult with
  | none => st
  | some t =>
    if st.hostsFileModTime < t then
      match loadResult with
      | some newRecords => { records := newRecords, hostsFileModTime := t }
      | none => st
    else st

/-! Helper lemmas and the claims. -/

theorem isUpperByte_goToLowerByte (b : Nat) : isUpperByte (goToLowerByte b) = false := by
  unfold goToLowerByte isUpperByte
  split <;> (rw [decide_eq_false_iff_not]; omega)

theorem not_upper_of_mem_goToLower {u : Nat} {s : List Nat} (h : u ∈ goToLower s) :
    isUpperByte u = false := by
  unfold goToLower at h
  obtain ⟨b, _, rfl⟩ := List.mem_map.mp h
  exact isUpperByte_goToLowerByte b

theorem mem_of_mem_dnsFqdn {u : Nat} {s : List Nat} (h : u ∈ dnsFqdn s) :
    u ∈ s ∨ u = 46 := by
  unfold dnsFqdn at h
  split at h
  · exact Or.inl h
  · rcases List.mem_append.mp h with h1 | h1
    · exact Or.inl h1
    · simp only [List.mem_singleton] at h1
      exact Or.inr h1

/-- C1: for every zone-file line accepted by the parser whose stored name
contains an uppercase ASCII letter (the parser never case-folds the name
field, and `dns.Fqdn` only ever appends a dot, so this is exactly the lines
whose name field contains an uppercase letter), no incoming question can
reach that entry: the resolver's normalised lookup key
`dns.Fqdn(strings.ToLower(q.Name))` is never equal to the stored name. -/
theorem c1_uppercase_zone_name_unreachable
    (line n : List Nat) (r : Record) (q : List Nat)
    (_hparse : parseLine line = some (n, r))
    (hup : n.any isUpperByte = true) :
    normalizeQuery q ≠ n := by
  intro heq
  simp only [List.any_eq_true] at hup
  obtain ⟨u, hmem, hu⟩ := hup
  rw [← heq] at hmem
  unfold normalizeQuery at hmem
  rcases mem_of_mem_dnsFqdn hmem with h | h
  · rw [not_upper_of_mem_goToLower h] at hu
    exact Bool.false_ne_true hu
  · subst h
    exact absurd hu (by decide)

theorem c1_witness :
    normalizeQuery (str "mixed.case.") ≠ str "Mixed.Case." :=
  c1_uppercase_zone_name_unreachable
    (str "Mixed.Case. 300 IN A 10.0.0.1") (str "Mixed.Case.")
    ⟨str "A", 300, str "10.0.0.1", 0⟩ (str "mixed.case.")
    (by decide) (by decide)

/-- C2 counterexample: a readable source whose every line is skipped parses
successfully into a Store with zero usable records, and startup proceeds to
serve (the claim says this case must abort fatally). -/
theorem c2_counterexample :
    loadZoneFileM (some [str "# only a comment"]) = some [] ∧
    startupServes (some [str "# only a comment"]) = true := by
  exact ⟨rfl, rfl⟩

/-- C2 (amended): startup aborts exactly when the initial source read fails
(`loadZoneFile` returns an error); a readable source that yields zero usable
records is accepted and the process serves with an empty store. -/
theorem c2_initial_load_abort_iff_unreadable
    (source : Option (List (List Nat))) :
    startupServes source = source.isSome := by
  cases source <;> rfl

/-- C3: a type-A question whose normalised name is stored as a CNAME record
is answered with exactly that CNAME record (stored target and TTL); the
target name is never looked up and no A record is appended. -/
theorem c3_cname_answer_for_a_query
    (recs : RecMap) (m : Msg) (a : Bool) (qn : List Nat) (rec : Record)
    (hl : lookupRecs recs (normalizeQuery qn) = some rec)
    (ht : rec.rType = str "CNAME") :
    processQuestion recs (m, a) ⟨qn, typeA⟩ =
      ({ m with answer := m.answer ++ [RR.cname qn rec.TTL rec.Data] }, true) := by
  have hCA : str "CNAME" ≠ str "A" := by decide
  simp [processQuestion, hl, ht, hCA]

theorem c3_witness :
    processQuestion (loadZone [str "alias.local. 300 IN CNAME example.local."])
      (initMsg, false) ⟨str "alias.local.", typeA⟩ =
      ({ initMsg with
          answer := initMsg.answer ++
            [RR.cname (str "alias.local.") 300 (str "example.local.")] }, true) :=
  c3_cname_answer_for_a_query
    (loadZone [str "alias.local. 300 IN CNAME example.local."])
    initMsg false (str "alias.local.")
    ⟨str "CNAME", 300, str "example.local.", 0⟩
    (by decide) (by decide)

/-- C4: when the reload loop sees a strictly newer modification time but
re-reading or re-parsing the zone file fails, the active record map and the
recorded modification time are both left unchanged (the loop itself has no
exit and keeps polling). -/
theorem c4_failed_reload_keeps_snapshot
    (st : ZoneState) (t : Nat) (h : st.hostsFileModTime < t) :
    reloadStep st (some t) none = st := by
  simp [reloadStep, h]

theorem processQuestion_snd (recs : RecMap) (m : Msg) (a : Bool) (q : Question) :
    (processQuestion recs (m, a) q).2 = (a || questionAnswered recs q) := by
  unfold questionAnswered processQuestion
  cases hl : lookupRecs recs (normalizeQuery q.qname) <;>
    simp [hl] <;> split_ifs <;> simp

theorem processQuestion_answer_of_snd_false (recs : RecMap) (m : Msg) (a : Bool)
    (q : Question) (h : (processQuestion recs (m, a) q).2 = false) :
    (processQuestion recs (m, a) q).1.answer = m.answer := by
  unfold processQuestion at h ⊢
  cases hl : lookupRecs recs (normalizeQuery q.qname) <;>
    simp [hl] at h ⊢ <;> split_ifs at h ⊢ <;> simp_all

theorem foldl_processQuestion_snd (recs : RecMap) (qs : List Question)
    (m : Msg) (a : Bool) :
    (qs.foldl (processQuestion recs) (m, a)).2 =
      (a || qs.any (questionAnswered recs)) := by
  induction qs generalizing m a with
  | nil => simp
  | cons q rest ih =>
    rw [List.foldl_cons]
    have hp : processQuestion recs (m, a) q =
        ((processQuestion recs (m, a) q).1, (processQuestion recs (m, a) q).2) := rfl
    rw [hp, ih, processQuestion_snd]
    simp [Bool.or_assoc]

theorem foldl_processQuestion_answer_of_false (recs : RecMap) (qs : List Question)
    (m : Msg) (a : Bool)
    (h : (qs.foldl (processQuestion recs) (m, a)).2 = false) :
    (qs.foldl (processQuestion recs) (m, a)).1.answer = m.answer := by
  induction qs generalizing m a with
  | nil => simp
  | cons q rest ih =>
    rw [List.foldl_cons] at h ⊢
    have hp : processQuestion recs (m, a) q =
        ((processQuestion recs (m, a) q).1, (processQuestion recs (m, a) q).2) := rfl
    rw [hp] at h ⊢
    have hsnd : (processQuestion recs (m, a) q).2 = false := by
      rw [hp, foldl_processQuestion_snd] at h
      rcases Bool.or_eq_false_iff.mp h with ⟨h1, _⟩
      exact h1
    rw [ih _ _ h]
    exact processQuestion_answer_of_snd_false recs m a q hsnd

/-- C5: when no question in the request produced an answer, an upstream is
configured, and forwarding fails (`forwardResult = none`), the reply written
to the client carries rcode SERVFAIL and an empty answer section. -/
theorem c5_forward_failure_servfail_empty
    (recs : RecMap) (fb : List Nat) (qs : List Question)
    (hfb : fb ≠ [])
    (hans : answeredFlag recs qs = false) :
    (handleDNSRequest recs fb none qs).1.rcode = rcodeServerFailure ∧
    (handleDNSRequest recs fb none qs).1.answer = [] := by
  unfold handleDNSRequest
  unfold answeredFlag at hans
  have hanswer := foldl_processQuestion_answer_of_false recs qs initMsg false hans
  simp only [hans, hfb, ne_eq, not_false_iff, and_true, if_pos rfl]
  constructor
  · rfl
  · simpa [initMsg] using hanswer

theorem c5_witness :
    (handleDNSRequest (loadZone [str "a.x 60 IN A 1.2.3.4"]) (str "8.8.8.8:53")
        none [⟨str "ghost.local.", typeA⟩]).1.rcode = rcodeServerFailure ∧
    (handleDNSRequest (loadZone [str "a.x 60 IN A 1.2.3.4"]) (str "8.8.8.8:53")
        none [⟨str "ghost.local.", typeA⟩]).1.answer = [] :=
  c5_forward_failure_servfail_empty
    (loadZone [str "a.x 60 IN A 1.2.3.4"]) (str "8.8.8.8:53")
    [⟨str "ghost.local.", typeA⟩] (by decide) (by decide)

/-- C6: fallback forwarding is attempted exactly when an upstream address is
configured and no question of the request produced an answer; in particular
one answered question suppresses it even if other questions went
unanswered. -/
theorem c6_fallback_iff_unanswered_and_configured
    (recs : RecMap) (fb : List Nat) (forwardResult : Option Msg)
    (qs : List Question) :
    (handleDNSRequest recs fb forwardResult qs).2 = true ↔
      (fb ≠ [] ∧ qs.any (questionAnswered recs) = false) := by
  have h2 := foldl_processQuestion_snd recs qs initMsg false
  rw [Bool.false_or] at h2
  have hval : (handleDNSRequest recs fb forwardResult qs).2 =
      decide ((qs.foldl (processQuestion recs) (initMsg, false)).2 = false ∧ fb ≠ []) := by
    by_cases hcond :
        (qs.foldl (processQuestion recs) (initMsg, false)).2 = false ∧ fb ≠ []
    · cases forwardResult <;> simp [handleDNSRequest, hcond]
    · simp [handleDNSRequest, hcond]
  rw [hval]
  simp only [decide_eq_true_eq, h2]
  exact and_comm

theorem c6_witness :
    ((handleDNSRequest (loadZone [str "a.x 60 IN A 1.2.3.4"]) (str "8.8.8.8:53")
        none [⟨str "a.x.", typeA⟩, ⟨str "ghost.local.", typeA⟩]).2 = true ↔
      (str "8.8.8.8:53" ≠ [] ∧
        ([⟨str "a.x.", typeA⟩, ⟨str "ghost.local.", typeA⟩] :
            List Question).any
          (questionAnswered (loadZone [str "a.x 60 IN A 1.2.3.4"])) = false)) :=
  c6_fallback_iff_unanswered_and_configured
    (loadZone [str "a.x 60 IN A 1.2.3.4"]) (str "8.8.8.8:53") none
    [⟨str "a.x.", typeA⟩, ⟨str "ghost.local.", typeA⟩]

/-- C7: for a question whose type is none of A, CNAME, TXT, MX: when a record
of any type exists for the normalised name, the handler sets rcode
NOTIMPLEMENTED (and neither answers nor raises the answered flag); when no
record exists, that path is never taken and the question leaves the reply
untouched — the two outcomes are distinct. -/
theorem c7_notimplemented_vs_no_local_answer
    (recs : RecMap) (m : Msg) (a : Bool) (qn : List Nat) (qt : Nat)
    (h1 : qt ≠ typeA) (h2 : qt ≠ typeCNAME) (h3 : qt ≠ typeTXT) (h4 : qt ≠ typeMX) :
    (∀ rec, lookupRecs recs (normalizeQuery qn) = some rec →
      processQuestion recs (m, a) ⟨qn, qt⟩ =
        ({ m with rcode := rcodeNotImplemented }, a)) ∧
    (lookupRecs recs (normalizeQuery qn) = none →
      processQuestion recs (m, a) ⟨qn, qt⟩ = (m, a)) := by
  constructor
  · intro rec hl
    simp [processQuestion, hl, h1, h2, h3, h4]
  · intro hl
    simp [processQuestion, hl]

theorem c7_witness :
    (processQuestion (loadZone [str "a.x 60 IN A 1.2.3.4"]) (initMsg, false)
        ⟨str "a.x.", 28⟩ = ({ initMsg with rcode := rcodeNotImplemented }, false)) ∧
    (processQuestion (loadZone [str "a.x 60 IN A 1.2.3.4"]) (initMsg, false)
        ⟨str "ghost.local.", 28⟩ = (initMsg, false)) :=
  ⟨(c7_notimplemented_vs_no_local_answer
      (loadZone [str "a.x 60 IN A 1.2.3.4"]) initMsg false (str "a.x.") 28
      (by decide) (by decide) (by decide) (by decide)).1
      ⟨str "A", 60, str "1.2.3.4", 0⟩ (by decide),
   (c7_notimplemented_vs_no_local_answer
      (loadZone [str "a.x 60 IN A 1.2.3.4"]) initMsg false (str "ghost.local.") 28
      (by decide) (by decide) (by decide) (by decide)).2 (by decide)⟩

theorem c4_witness :
    reloadStep ⟨[(str "a.x.", ⟨str "A", 60, str "1.2.3.4", 0⟩)], 5⟩ (some 7) none =
      ⟨[(str "a.x.", ⟨str "A", 60, str "1.2.3.4", 0⟩)], 5⟩ :=
  c4_failed_reload_keeps_snapshot
    ⟨[(str "a.x.", ⟨str "A", 60, str "1.2.3.4", 0⟩)], 5⟩ 7 (by decide)

theorem lookupRecs_insertRec_self (recs : RecMap) (n : List Nat) (r : Record) :
    lookupRecs (insertRec recs n r) n = some r := by
  induction recs with
  | nil => simp [insertRec, lookupRecs]
  | cons p rest ih =>
    obtain ⟨k, v⟩ := p
    by_cases hk : k = n <;> simp [insertRec, lookupRecs, hk, ih]

theorem mem_keys_insertRec {recs : RecMap} {n : List Nat} {r : Record} {x : List Nat}
    (h : x ∈ (insertRec recs n r).map Prod.fst) :
    x ∈ recs.map Prod.fst ∨ x = n := by
  induction recs with
  | nil =>
    simp [insertRec] at h
    exact Or.inr h
  | cons p rest ih =>
    obtain ⟨k, v⟩ := p
    by_cases hk : k = n
    · rw [show insertRec ((k, v) :: rest) n r = (n, r) :: rest from by
        simp [insertRec, hk]] at h
      simp only [List.map_cons, List.mem_cons] at h ⊢
      rcases h with h | h
      · exact Or.inr h
      · exact Or.inl (Or.inr h)
    · rw [show insertRec ((k, v) :: rest) n r = (k, v) :: insertRec rest n r from by
        simp [insertRec, hk]] at h
      simp only [List.map_cons, List.mem_cons] at h ⊢
      rcases h with h | h
      · exact Or.inl (Or.inl h)
      · rcases ih h with h1 | h1
        · exact Or.inl (Or.inr h1)
        · exact Or.inr h1

theorem nodup_keys_insertRec {recs : RecMap} {n : List Nat} {r : Record}
    (h : (recs.map Prod.fst).Nodup) :
    ((insertRec recs n r).map Prod.fst).Nodup := by
  induction recs with
  | nil => simp [insertRec]
  | cons p rest ih =>
    obtain ⟨k, v⟩ := p
    simp only [List.map_cons, List.nodup_cons] at h
    by_cases hk : k = n
    · simp only [insertRec, if_pos hk, List.map_cons, List.nodup_cons]
      exact ⟨hk ▸ h.1, h.2⟩
    · simp only [insertRec, if_neg hk, List.map_cons, List.nodup_cons]
      refine ⟨fun hmem => ?_, ih h.2⟩
      rcases mem_keys_insertRec hmem with h1 | h1
      · exact h.1 h1
      · exact hk h1

theorem nodup_keys_foldl_processLine (lines : List (List Nat)) (acc : RecMap)
    (h : (acc.map Prod.fst).Nodup) :
    ((lines.foldl processLine acc).map Prod.fst).Nodup := by
  induction lines generalizing acc with
  | nil => exact h
  | cons l rest ih =>
    rw [List.foldl_cons]
    refine ih _ ?_
    unfold processLine
    cases hp : parseLine l with
    | none => exact h
    | some p => exact nodup_keys_insertRec h

/-- C8: in any parsed Store each name is bound at most once (the key list is
duplicate-free), and a valid line defining a name already defined by an
earlier line silently replaces the earlier record, whatever the two record
types are (the record looked up after the load is the later line's). -/
theorem c8_single_record_per_name_later_wins :
    (∀ lines, ((loadZone lines).map Prod.fst).Nodup) ∧
    (∀ lines line n r, parseLine line = some (n, r) →
      lookupRecs (loadZone (lines ++ [line])) n = some r) := by
  constructor
  · intro lines
    exact nodup_keys_foldl_processLine lines [] (by simp)
  · intro lines line n r hp
    unfold loadZone
    rw [List.foldl_append, List.foldl_cons, List.foldl_nil]
    unfold processLine
    rw [hp]
    exact lookupRecs_insertRec_self _ n r

theorem c8_witness :
    lookupRecs (loadZone ([str "a.x 60 IN A 1.2.3.4"] ++ [str "a.x 60 IN TXT hello"]))
        (str "a.x.") = some ⟨str "TXT", 60, str "hello", 0⟩ ∧
    ((loadZone [str "a.x 60 IN A 1.2.3.4", str "a.x 60 IN TXT hello"]).map
        Prod.fst).Nodup :=
  ⟨c8_single_record_per_name_later_wins.2 [str "a.x 60 IN A 1.2.3.4"]
      (str "a.x 60 IN TXT hello") (str "a.x.") ⟨str "TXT", 60, str "hello", 0⟩
      (by decide),
   c8_single_record_per_name_later_wins.1
      [str "a.x 60 IN A 1.2.3.4", str "a.x 60 IN TXT hello"]⟩

/-- C10: the parser's A branch accepts any data field that `net.ParseIP`
accepts — IPv6 literals included — storing the raw text; and an A query for
a stored A record whose data does not survive `To4()` (e.g. a plain IPv6
address) is still counted as answered, but the answer's address field is
nil rather than the stored value. -/
theorem c10_ipv6_a_record_answered_with_nil_address :
    (∀ f0 f1 f2 f3 f4 rest ttl, parseUint32 f1 = some ttl →
      goToUpper f2 = str "IN" → goToUpper f3 = str "A" → parseIP f4 ≠ none →
      parseLineFields (f0 :: f1 :: f2 :: f3 :: f4 :: rest) =
        some (dnsFqdn f0, ⟨str "A", ttl, f4, 0⟩)) ∧
    (∀ recs (m : Msg) (a : Bool) qn rec,
      lookupRecs recs (normalizeQuery qn) = some rec →
      rec.rType = str "A" →
      (parseIP rec.Data).bind to4 = none →
      processQuestion recs (m, a) ⟨qn, typeA⟩ =
        ({ m with answer := m.answer ++ [RR.a qn rec.TTL none] }, true)) := by
  constructor
  · intro f0 f1 f2 f3 f4 rest ttl httl hcls hrt hip
    simp [parseLineFields, httl, hcls, hrt, hip]
  · intro recs m a qn rec hl ht hto4
    simp [processQuestion, hl, ht, hto4]

theorem c10_witness :
    parseLineFields
        [str "v6.local.", str "60", str "IN", str "A", str "2001:db8::1"] =
      some (dnsFqdn (str "v6.local."), ⟨str "A", 60, str "2001:db8::1", 0⟩) ∧
    processQuestion (loadZone [str "v6.local. 60 IN A 2001:db8::1"])
        (initMsg, false) ⟨str "v6.local.", typeA⟩ =
      ({ initMsg with
          answer := initMsg.answer ++ [RR.a (str "v6.local.") 60 none] }, true) :=
  ⟨c10_ipv6_a_record_answered_with_nil_address.1
      (str "v6.local.") (str "60") (str "IN") (str "A") (str "2001:db8::1") []
      60 (by decide) (by decide) (by decide) (by decide),
   c10_ipv6_a_record_answered_with_nil_address.2
      (loadZone [str "v6.local. 60 IN A 2001:db8::1"]) initMsg false
      (str "v6.local.") ⟨str "A", 60, str "2001:db8::1", 0⟩
      (by decide) (by decide) (by decide)⟩

end MicroDNS
